import Mathlib

/-!
Shallow embedding of the conversation-session core of the
`englishjapanesecoach2` repository (a Gemini-based language-tutoring
client).  The definitions below are translated from the TypeScript
source: `src/components/ConversationView.tsx` (live spoken session:
playback scheduling, transcript aggregation, delimited-text response
parsing, stop/pause/resume), `src/unnamed/part_002` and
`src/unnamed/part_003` (the two written-mode App variants and their
JSON response handling), and `src/unnamed/part_000`
(`getFriendlyErrorMessage`).  Real-valued quantities (audio clock
times, buffer durations, normalized samples) are modelled as rationals;
JavaScript strings are modelled as Lean strings, with whitespace taken
to be space, tab, CR and LF (`Char.isWhitespace`), which agrees with
JavaScript `\s` and `String.prototype.trim` on the character set these
payloads use.  String primitives are re-implemented by structural
recursion so that every definition evaluates inside the kernel.
-/

/-- Recording states of the live conversation session
(`type RecordingState` in ConversationView.tsx). -/
inductive RecState where
  | idle
  | connecting
  | recording
  | paused
deriving DecidableEq, Repr

/-- The two UI languages (`enum Language` in the source; renamed here
because Mathlib already declares `Language`). -/
inductive AppLanguage where
  | english
  | japanese
deriving DecidableEq, Repr

/-- The role of a chat message. -/
inductive Role where
  | user
  | model
deriving DecidableEq, Repr

/-- One row of the word-by-word gloss table (`interface BreakdownEntry`). -/
structure BreakdownEntry where
  word : String
  romaji : String
  spanish : String
deriving DecidableEq, Repr

/-- A finalized conversation-history record (`interface ChatMessage`).
Optional fields absent in TypeScript are modelled as `none`. -/
structure ChatMessage where
  role : Role
  text : String
  speech : Option String := none
  romaji : Option String := none
  breakdown : Option (List BreakdownEntry) := none
deriving DecidableEq, Repr

/-- JavaScript `String.prototype.trim`: drop leading and trailing
whitespace. -/
def jsTrim (s : String) : String :=
  String.mk (((s.data.dropWhile Char.isWhitespace).reverse.dropWhile
    Char.isWhitespace).reverse)

/-- Scan a character list for the first occurrence of the pattern `pat`
and return the remainder after it (the JavaScript semantics of finding
the leftmost match of a literal in `String.prototype.match` /
`String.prototype.includes`). -/
def dropAfterFirst (pat : List Char) : List Char → Option (List Char)
  | [] => none
  | c :: cs =>
    if pat = (c :: cs).take pat.length then some ((c :: cs).drop pat.length)
    else dropAfterFirst pat cs

/-- Split a character list at the first occurrence of `pat`, returning
the segment before it and the remainder after it. -/
def breakAtFirst (pat : List Char) : List Char → Option (List Char × List Char)
  | [] => none
  | c :: cs =>
    if pat = (c :: cs).take pat.length then some ([], (c :: cs).drop pat.length)
    else (breakAtFirst pat cs).map fun p => (c :: p.1, p.2)

/-- Fuelled worker for `jsSplit`; the fuel bounds the number of
separator occurrences, so any fuel of at least the list length is
enough. -/
def jsSplitAux (pat : List Char) : Nat → List Char → List (List Char)
  | 0, l => [l]
  | fuel + 1, l =>
    match breakAtFirst pat l with
    | none => [l]
    | some (pre, post) => pre :: jsSplitAux pat fuel post

/-- JavaScript `String.prototype.split` on a non-empty literal
separator: leftmost non-overlapping occurrences, always at least one
resulting segment. -/
def jsSplit (sep s : String) : List String :=
  (jsSplitAux sep.data (s.data.length + 1) s.data).map String.mk

/-- Remainder of `s` after the first occurrence of `pat`, if any. -/
def restAfterFirst (pat s : String) : Option String :=
  (dropAfterFirst pat.data s.data).map String.mk

/-- Substring test, as JavaScript `String.prototype.includes` on a
non-empty subject string. -/
def strOccurs (pat s : String) : Bool :=
  (dropAfterFirst pat.data s.data).isSome

/-- Split one breakdown line on the pipe character and trim each field:
`const [word, romaji, spanish] = line.split('|').map(s => s.trim())`
(ConversationView.tsx line 195).  A missing field destructures to
`undefined` in JavaScript; since kept entries must have all fields
truthy, the empty-string default is observationally identical. -/
def parseBreakdownLine (line : String) : BreakdownEntry :=
  let fs := (jsSplit "|" line).map jsTrim
  { word := fs.getD 0 "", romaji := fs.getD 1 "", spanish := fs.getD 2 "" }

/-- The filter applied to parsed breakdown entries:
`.filter(b => b.word && b.romaji && b.spanish)` (line 197). -/
def breakdownKeep (b : BreakdownEntry) : Bool :=
  !(b.word == "") && !(b.romaji == "") && !(b.spanish == "")

/-- Result of `formattedText.match(/Romaji:\s*(.*)/m)` followed by
`romajiMatch[1].trim()` (lines 188-189): find the first literal
`Romaji:`, skip the maximal whitespace run (greedy `\s*`), capture up
to the next line terminator (`.` does not cross newlines), then trim.
Returns `none` exactly when the label does not occur. -/
def extractRomaji (s : String) : Option String :=
  (restAfterFirst "Romaji:" s).map fun rest =>
    jsTrim (String.mk ((rest.data.dropWhile Char.isWhitespace).takeWhile
      fun c => !(c = '\n' || c = '\r')))

/-- Result of `formattedText.match(/Breakdown:\s*([\s\S]*)/m)` and the
subsequent guard and line processing (lines 191-197): the capture is
everything after the first `Breakdown:` minus the maximal leading
whitespace run; the breakdown is only set when the capture is truthy
(non-empty); the capture is trimmed, split into lines, each line parsed
and filtered. -/
def extractBreakdown (s : String) : Option (List BreakdownEntry) :=
  match restAfterFirst "Breakdown:" s with
  | none => none
  | some rest =>
    let capture := String.mk (rest.data.dropWhile Char.isWhitespace)
    if capture = "" then none
    else some (((jsSplit "\n" (jsTrim capture)).map parseBreakdownLine).filter
      breakdownKeep)

/-- Construction of the model `ChatMessage` at turn-complete
(ConversationView.tsx lines 180-200): the message text starts as the
live transcript and is enhanced from the formatted model text when that
text is non-empty and the language is Japanese.  `parts[0]?.trim() ||
liveTranscript` falls back to the live transcript when the first `---`
segment trims to empty. -/
def mkModelMessage (lang : AppLanguage) (formatted live : String) : ChatMessage :=
  if formatted ≠ "" ∧ lang = AppLanguage.japanese then
    { role := Role.model
      text :=
        let t := jsTrim ((jsSplit "---" formatted).headD "")
        if t = "" then live else t
      romaji := extractRomaji formatted
      breakdown := extractBreakdown formatted }
  else { role := Role.model, text := live }

/-- JavaScript number-to-integer truncation (`ToIntegerOrInfinity`):
round toward zero.  Captured audio samples are modelled as rationals. -/
def jsTrunc (x : ℚ) : ℤ :=
  if 0 ≤ x then ⌊x⌋ else ⌈x⌉

/-- JavaScript `ToInt16`, the per-element conversion performed by the
`Int16Array` constructor: truncate toward zero, reduce modulo 2^16 and
re-center into [-2^15, 2^15). -/
def toInt16 (x : ℚ) : ℤ :=
  let m := jsTrunc x % 65536
  if 32768 ≤ m then m - 65536 else m

/-- Per-sample PCM16 encoding performed by the capture callback:
`new Int16Array(inputData.map(x => x * 32768))`
(ConversationView.tsx line 141). -/
def encodeSample (x : ℚ) : ℤ :=
  toInt16 (x * 32768)

/-- The audio-chunk encoder applied to one captured buffer of
normalized samples (ConversationView.tsx lines 138-145, before the
byte-level base64 step). -/
def encodeChunk (samples : List ℚ) : List ℤ :=
  samples.map encodeSample

/-- Modelled from the spec: the transport-equivalent decode of one
PCM16 sample back to a normalized float.  The file
`src/utils/audio.ts` of the repository (`decode` / `decodeAudioData`)
is imported by the source but absent from `src/`; §4.1/§8 of the spec describe the wire
format as signed 16-bit PCM of normalized [-1,1] samples, whose
standard decode divides by 2^15. -/
def decodeSample (v : ℤ) : ℚ :=
  (v : ℚ) / 32768

/-- Core of the PlaybackScheduler (ConversationView.tsx lines 219-226):
given the current `nextStartTime` cursor, the playback clock reading
and the buffer duration, return the computed start time and the
advanced cursor: `nextStartTime = max(nextStartTime, currentTime)`,
`source.start(nextStartTime)`, `nextStartTime += audioBuffer.duration`. -/
def scheduleAudio (next clock dur : ℚ) : ℚ × ℚ :=
  let start := max next clock
  (start, start + dur)

/-- Start times computed for a sequence of buffer arrivals, each
arrival being a pair (playback clock reading, buffer duration). -/
def schedStarts (next : ℚ) : List (ℚ × ℚ) → List ℚ
  | [] => []
  | a :: rest =>
    (scheduleAudio next a.1 a.2).1 ::
      schedStarts (scheduleAudio next a.1 a.2).2 rest

/-- The `nextStartTime` cursor after a sequence of buffer arrivals. -/
def schedNext (next : ℚ) : List (ℚ × ℚ) → ℚ
  | [] => next
  | a :: rest => schedNext (scheduleAudio next a.1 a.2).2 rest

/-- The mutable cross-callback state of the live session component: the
recording state, the resource refs (modelled as booleans / options for
held-or-not and open-or-closed), the three per-turn transcript
accumulators, the finalized history, and the playback scheduler state.
An audio context ref is `none` when never created, `some true` when
open and `some false` when closed (the source closes contexts without
nulling the refs).  `audioSources` is the size of the active
`AudioBufferSourceNode` set. -/
structure ConvState where
  recState : RecState
  sessionOpen : Bool
  streamOpen : Bool
  scriptProcessor : Bool
  mediaStreamSource : Bool
  captureConnected : Bool
  inputCtx : Option Bool
  outputCtx : Option Bool
  currentInput : String
  currentOutput : String
  currentLiveOutput : String
  history : List ChatMessage
  nextStartTime : ℚ
  audioSources : Nat
deriving DecidableEq, Repr

/-- The idle component state before any session is started. -/
def initConv : ConvState :=
  { recState := RecState.idle
    sessionOpen := false
    streamOpen := false
    scriptProcessor := false
    mediaStreamSource := false
    captureConnected := false
    inputCtx := none
    outputCtx := none
    currentInput := ""
    currentOutput := ""
    currentLiveOutput := ""
    history := []
    nextStartTime := 0
    audioSources := 0 }

/-- One inbound `LiveServerMessage`, restricted to the fields the
`onmessage` handler reads.  An audio fragment carries its decoded
buffer duration together with the output-context playback clock reading
at the moment the handler processes it (the environment input
`outputAudioContextRef.current.currentTime`). -/
structure ServerMessage where
  inputTranscription : Option String := none
  outputTranscription : Option String := none
  modelTurnTexts : List String := []
  audio : Option (ℚ × ℚ) := none
  turnComplete : Bool := false
  interrupted : Bool := false
deriving DecidableEq, Repr

/-- Flush of the PlaybackScheduler (the `interrupted` branch, lines
231-233, and the corresponding part of `stopConversation`, lines
79-81): stop every active source, clear the active-source set, reset
`nextStartTime` to zero.  The second component counts how many sources
were stopped. -/
def flushPlayback (s : ConvState) : ConvState × Nat :=
  ({ s with audioSources := 0, nextStartTime := 0 }, s.audioSources)

/-- The `stopConversation` callback (ConversationView.tsx lines 51-85):
close the transport session, stop the capture tracks, disconnect and
drop both audio nodes, close both audio contexts unless already
closed, stop and clear all playback sources, reset `nextStartTime`,
and set the state to idle. -/
def stopConversation (s : ConvState) : ConvState :=
  { recState := RecState.idle
    sessionOpen := false
    streamOpen := false
    scriptProcessor := false
    mediaStreamSource := false
    captureConnected := false
    inputCtx := s.inputCtx.map fun _ => false
    outputCtx := s.outputCtx.map fun _ => false
    currentInput := s.currentInput
    currentOutput := s.currentOutput
    currentLiveOutput := s.currentLiveOutput
    history := s.history
    nextStartTime := 0
    audioSources := 0 }

/-- The `pauseRecording` callback (lines 87-92): when both capture
nodes exist, disconnect them and mark the state paused. -/
def pauseRecording (s : ConvState) : ConvState :=
  if s.scriptProcessor && s.mediaStreamSource then
    { s with captureConnected := false, recState := RecState.paused }
  else s

/-- The `resumeRecording` callback (lines 94-99): when both capture
nodes exist, reconnect them and mark the state recording. -/
def resumeRecording (s : ConvState) : ConvState :=
  if s.scriptProcessor && s.mediaStreamSource then
    { s with captureConnected := true, recState := RecState.recording }
  else s

/-- The turn-complete block of the `onmessage` handler (lines 170-212):
trim the accumulated input, formatted-output and live-output texts,
emit a user message when the trimmed input is non-empty, then a model
message when the trimmed live transcript is non-empty, append them to
the history, and clear all three accumulators. -/
def handleTurnComplete (lang : AppLanguage) (s : ConvState) : ConvState :=
  let fullInput := jsTrim s.currentInput
  let formattedText := jsTrim s.currentOutput
  let liveTranscript := jsTrim s.currentLiveOutput
  let userEntries : List ChatMessage :=
    if fullInput ≠ "" then [{ role := Role.user, text := fullInput }] else []
  let modelEntries : List ChatMessage :=
    if liveTranscript ≠ "" then [mkModelMessage lang formattedText liveTranscript]
    else []
  { s with
    history := s.history ++ (userEntries ++ modelEntries)
    currentInput := ""
    currentOutput := ""
    currentLiveOutput := "" }

/-- The audio-fragment block of the `onmessage` handler (lines
214-228): runs only when the message carries inline audio and the
output context ref is set; auto-pauses capture when currently
recording, then schedules the decoded buffer through the
PlaybackScheduler and adds the source to the active set. -/
def handleAudio (s : ConvState) (dur clock : ℚ) : ConvState :=
  if s.outputCtx.isSome then
    let s1 := if s.recState = RecState.recording then pauseRecording s else s
    { s1 with
      nextStartTime := (scheduleAudio s1.nextStartTime clock dur).2
      audioSources := s1.audioSources + 1 }
  else s

/-- The `onmessage` callback (ConversationView.tsx lines 150-235),
processing the blocks in source order: input-transcription
accumulation, output-transcription accumulation, model-turn text
accumulation, turn completion, audio scheduling, interruption flush. -/
def onMessage (lang : AppLanguage) (s : ConvState) (m : ServerMessage) : ConvState :=
  let s1 :=
    match m.inputTranscription with
    | some t => { s with currentInput := s.currentInput ++ t }
    | none => s
  let s2 :=
    match m.outputTranscription with
    | some t => { s1 with currentLiveOutput := s1.currentLiveOutput ++ t }
    | none => s1
  let s3 :=
    { s2 with currentOutput :=
        m.modelTurnTexts.foldl (fun acc t => acc ++ t) s2.currentOutput }
  let s4 := if m.turnComplete then handleTurnComplete lang s3 else s3
  let s5 :=
    match m.audio with
    | some a => handleAudio s4 a.1 a.2
    | none => s4
  if m.interrupted then (flushPlayback s5).1 else s5

/-- A message carrying only an input-transcription fragment. -/
def inputMsg (t : String) : ServerMessage :=
  { inputTranscription := some t }

/-- A message carrying only an output-transcription fragment. -/
def outputMsg (t : String) : ServerMessage :=
  { outputTranscription := some t }

/-- A message carrying only one model-turn text part. -/
def modelTextMsg (t : String) : ServerMessage :=
  { modelTurnTexts := [t] }

/-- A message carrying only the turn-complete flag. -/
def turnCompleteMsg : ServerMessage :=
  { turnComplete := true }

/-- A message carrying only the interrupted flag. -/
def interruptedMsg : ServerMessage :=
  { interrupted := true }

/-- A message carrying only an inline audio fragment of the given
duration, processed at the given playback clock reading. -/
def audioMsg (dur clock : ℚ) : ServerMessage :=
  { audio := some (dur, clock) }

/-- Feed a list of messages to the handler in order. -/
def feedMessages (lang : AppLanguage) (s : ConvState) (ms : List ServerMessage) :
    ConvState :=
  ms.foldl (onMessage lang) s

/-- The shape the part_002 written-mode App expects from a Japanese
JSON response: `{ japanese, romaji }`. -/
structure ParsedV2 where
  japanese : String
  romaji : String
deriving DecidableEq, Repr

/-- The shape the part_003 written-mode App expects from a Japanese
JSON response (`japaneseResponseSchema`):
`{ displayText, speechText, romajiText, breakdown }`. -/
structure ParsedV3 where
  displayText : String
  speechText : String
  romajiText : String
  breakdown : List BreakdownEntry
deriving DecidableEq, Repr

/-- The `getFriendlyErrorMessage` helper (src/unnamed/part_000) applied
to an error whose message text is `errorMessage`.  The inner
`JSON.parse(errorMessage)` attempt is abstracted by `parsedApiError`:
`none` when the message is not JSON (the catch branch returns the
message unchanged), `some none` when it parses but carries no
`error.message`, and `some (some m)` when it carries one (the source
then keeps only the first `\n`-delimited segment, splitting on the
two-character literal backslash-n). -/
def getFriendlyErrorMessage (errorMessage : String)
    (parsedApiError : Option (Option String)) : String :=
  if strOccurs "429" errorMessage || strOccurs "RESOURCE_EXHAUSTED" errorMessage then
    "Has alcanzado tu cuota de API. Por favor, revisa tu plan y detalles de facturación en Google AI Studio e inténtalo de nuevo más tarde."
  else
    match parsedApiError with
    | none => errorMessage
    | some none =>
      if errorMessage = "" then "Ocurrió un error. Por favor, inténtalo de nuevo."
      else errorMessage
    | some (some m) => "Error de la API: " ++ (jsSplit "\\n" m).headD ""

/-- The Japanese-response handling of `handleSendMessage` in
src/unnamed/part_002 (lines 164-175).  `parsed` abstracts the
`JSON.parse(response.text)` attempt; on failure the catch branch builds
a fallback message that keeps the raw response text. -/
def handleSendMessageV2 (parsed : Option ParsedV2) (raw : String) : ChatMessage :=
  match parsed with
  | some p => { role := Role.model, text := p.japanese, romaji := some p.romaji }
  | none =>
    { role := Role.model
      text := "Sorry, I had trouble formatting my response. Here is the raw text: " ++ raw }

/-- The Japanese-response handling of `handleSendMessage` in
src/unnamed/part_003 (lines 322-351).  There the `JSON.parse` call is
not guarded locally: a parse failure propagates to the outer catch,
which surfaces `getFriendlyErrorMessage` of the thrown error (whose
message is `errMsg`, with `parsedApiError` as in that helper) through
`setError` and appends a generic error message instead.  Returns the
appended model message together with the surfaced error slot. -/
def handleSendMessageV3 (parsed : Option ParsedV3) (errMsg : String)
    (parsedApiError : Option (Option String)) : ChatMessage × Option String :=
  match parsed with
  | some p =>
    ({ role := Role.model, text := p.displayText, speech := some p.speechText,
       romaji := some p.romajiText, breakdown := some p.breakdown }, none)
  | none =>
    let friendly := getFriendlyErrorMessage errMsg parsedApiError
    ({ role := Role.model, text := "Lo siento, ocurrió un error: " ++ friendly },
     some friendly)

/-- Concatenation of transcript fragments in arrival order, matching
the `ref.current += fragment` accumulation in the handler. -/
def concatFrags (frags : List String) : String :=
  frags.foldl (fun a b => a ++ b) ""

theorem getD_ne_filter_len (fs : List String)
    (h0 : fs.getD 0 "" ≠ "") (h1 : fs.getD 1 "" ≠ "") (h2 : fs.getD 2 "" ≠ "") :
    3 ≤ (fs.filter fun f => !(f == "")).length := by
  match fs with
  | [] => exact absurd rfl h0
  | [a] => exact absurd rfl h1
  | [a, b] => exact absurd rfl h2
  | a :: b :: c :: t =>
    simp only [List.getD, List.getElem?_cons_zero, List.getD_cons_succ,
      Option.getD_some] at h0 h1 h2
    have e0 : (a == "") = false := beq_eq_false_iff_ne.mpr h0
    have e1 : (b == "") = false := beq_eq_false_iff_ne.mpr h1
    have e2 : (c == "") = false := beq_eq_false_iff_ne.mpr h2
    simp [List.filter, e0, e1, e2]

/-- C3: calling `stopConversation` from any component state ends idle
with every resource released — transport closed, capture stream and
both audio nodes dropped, both audio contexts no longer open, the
active playback-source set empty and `nextStartTime` zero — and a
second consecutive call produces the same final state as one call,
including when some resources were never acquired. -/
theorem C3_stop_idempotent_releases_all (s : ConvState) :
    (stopConversation s).recState = RecState.idle ∧
    (stopConversation s).sessionOpen = false ∧
    (stopConversation s).streamOpen = false ∧
    (stopConversation s).scriptProcessor = false ∧
    (stopConversation s).mediaStreamSource = false ∧
    (stopConversation s).inputCtx ≠ some true ∧
    (stopConversation s).outputCtx ≠ some true ∧
    (stopConversation s).audioSources = 0 ∧
    (stopConversation s).nextStartTime = 0 ∧
    stopConversation (stopConversation s) = stopConversation s := by
  refine ⟨rfl, rfl, rfl, rfl, rfl, ?_, ?_, rfl, rfl, ?_⟩
  · cases h : s.inputCtx <;> simp [stopConversation, h]
  · cases h : s.outputCtx <;> simp [stopConversation, h]
  · cases hi : s.inputCtx <;> cases ho : s.outputCtx <;>
      simp [stopConversation, hi, ho]

/-- C5: the delimited-text parser maps the payload
`"Hi---Romaji: Hai\nBreakdown:\nA | B | C"` to text `"Hi"`, romaji
`"Hai"` and the single breakdown entry `{A, B, C}`; every breakdown
line is split on the pipe with each field trimmed, a line whose trimmed
split yields fewer than three non-empty fields is discarded, and the
lone line `"A | B"` therefore yields an empty breakdown. -/
theorem C5_delimited_text_parsing :
    mkModelMessage AppLanguage.japanese "Hi---Romaji: Hai\nBreakdown:\nA | B | C" "x" =
      { role := Role.model, text := "Hi", romaji := some "Hai",
        breakdown := some [{ word := "A", romaji := "B", spanish := "C" }] } ∧
    (∀ line : String,
      (((jsSplit "|" line).map jsTrim).filter fun f => !(f == "")).length < 3 →
        breakdownKeep (parseBreakdownLine line) = false) ∧
    mkModelMessage AppLanguage.japanese "Hi---Breakdown:\nA | B" "x" =
      { role := Role.model, text := "Hi", romaji := none,
        breakdown := some [] } := by
  refine ⟨by decide, ?_, by decide⟩
  intro line h
  by_contra hk
  rw [Bool.not_eq_false, breakdownKeep, parseBreakdownLine] at hk
  simp only [Bool.and_eq_true, Bool.not_eq_true', beq_eq_false_iff_ne] at hk
  exact absurd (getD_ne_filter_len _ hk.1.1 hk.1.2 hk.2) (by omega)

theorem C5_delimited_text_parsing_witness :
    (((jsSplit "|" "A | B").map jsTrim).filter fun f => !(f == "")).length < 3 ∧
    breakdownKeep (parseBreakdownLine "A | B") = false :=
  ⟨by decide, (C5_delimited_text_parsing.2.1) "A | B" (by decide)⟩

/-- C6 counterexample: a live Japanese turn whose formatted model text
carries a `Breakdown:` section containing only the invalid line
`"A | B"` stores a model message whose `breakdown` field is present but
empty, so it is not the case that every stored message with a present
breakdown has a non-empty one. -/
theorem C6_counterexample :
    ¬ (∀ m ∈ (feedMessages AppLanguage.japanese initConv
        [outputMsg "X", modelTextMsg "Hi---Breakdown:\nA | B",
          turnCompleteMsg]).history,
        m.breakdown ≠ some []) := by
  decide

/-- C6 amended: every breakdown entry of a message built by the live
delimited-text path has all three fields non-empty (entries failing the
parse-time filter are dropped and never stored partially), but the
breakdown field itself may be present and empty when every line is
discarded, and the part_003 written-mode JSON path stores the parsed
breakdown of the parsed payload without any such filtering. -/
theorem C6_breakdown_entry_fields_nonempty (lang : AppLanguage)
    (formatted live : String) (b : BreakdownEntry)
    (hb : b ∈ (mkModelMessage lang formatted live).breakdown.getD []) :
    (b.word ≠ "" ∧ b.romaji ≠ "" ∧ b.spanish ≠ "") ∧
    ∀ (p : ParsedV3) (errMsg : String) (pe : Option (Option String)),
      (handleSendMessageV3 (some p) errMsg pe).1.breakdown = some p.breakdown := by
  refine ⟨?_, fun p errMsg pe => rfl⟩
  rw [mkModelMessage] at hb
  split at hb
  · simp only [extractBreakdown] at hb
    split at hb
    · simp at hb
    · split at hb
      · simp at hb
      · simp only [Option.getD_some, List.mem_filter] at hb
        have hk := hb.2
        rw [breakdownKeep] at hk
        simp only [Bool.and_eq_true, Bool.not_eq_true', beq_eq_false_iff_ne] at hk
        exact ⟨hk.1.1, hk.1.2, hk.2⟩
  · simp at hb

theorem C6_breakdown_entry_fields_nonempty_witness :
    (({ word := "A", romaji := "B", spanish := "C" } : BreakdownEntry).word ≠ "" ∧
      ({ word := "A", romaji := "B", spanish := "C" } : BreakdownEntry).romaji ≠ "" ∧
      ({ word := "A", romaji := "B", spanish := "C" } : BreakdownEntry).spanish ≠ "") ∧
    ∀ (p : ParsedV3) (errMsg : String) (pe : Option (Option String)),
      (handleSendMessageV3 (some p) errMsg pe).1.breakdown = some p.breakdown :=
  C6_breakdown_entry_fields_nonempty AppLanguage.japanese
    "Hi---Breakdown:\nA | B | C" "x" { word := "A", romaji := "B", spanish := "C" }
    (by decide)

theorem schedStarts_clock_le (arr : List (ℚ × ℚ)) :
    ∀ (next0 : ℚ) (i : ℕ) (h1 : i < (schedStarts next0 arr).length)
      (h2 : i < arr.length),
      (arr.get ⟨i, h2⟩).1 ≤ (schedStarts next0 arr).get ⟨i, h1⟩ := by
  induction arr with
  | nil => intro next0 i h1 h2; exact absurd h2 (by simp)
  | cons a rest ih =>
    intro next0 i h1 h2
    cases i with
    | zero => simp [schedStarts, scheduleAudio]
    | succ j =>
      simpa [schedStarts] using
        ih (scheduleAudio next0 a.1 a.2).2 j (by simpa [schedStarts] using h1)
          (by simpa using h2)

theorem schedStarts_gap (arr : List (ℚ × ℚ)) :
    ∀ (next0 : ℚ) (i : ℕ) (h1 : i < (schedStarts next0 arr).length)
      (h2 : i + 1 < (schedStarts next0 arr).length) (h3 : i < arr.length),
      (schedStarts next0 arr).get ⟨i, h1⟩ + (arr.get ⟨i, h3⟩).2 ≤
        (schedStarts next0 arr).get ⟨i + 1, h2⟩ := by
  induction arr with
  | nil => intro next0 i h1 h2 h3; exact absurd h3 (by simp)
  | cons a rest ih =>
    intro next0 i h1 h2 h3
    cases i with
    | zero =>
      cases rest with
      | nil => simp [schedStarts] at h2
      | cons b rest2 => simp [schedStarts, scheduleAudio]
    | succ j =>
      simpa [schedStarts] using
        ih (scheduleAudio next0 a.1 a.2).2 j (by simpa [schedStarts] using h1)
          (by simpa [schedStarts] using h2) (by simpa using h3)

theorem schedNext_mono (arr : List (ℚ × ℚ)) :
    ∀ next0 : ℚ, (∀ p ∈ arr, 0 ≤ p.2) → next0 ≤ schedNext next0 arr := by
  induction arr with
  | nil => intro next0 _; exact le_refl next0
  | cons a rest ih =>
    intro next0 hd
    have h1 : next0 ≤ (scheduleAudio next0 a.1 a.2).2 := by
      have := hd a (by simp)
      simp only [scheduleAudio]
      calc next0 ≤ max next0 a.1 := le_max_left _ _
        _ ≤ max next0 a.1 + a.2 := by linarith
    exact le_trans h1 (ih _ fun p hp => hd p (by simp [hp]))

/-- C1: the playback scheduler computes the start time of each buffer as
`max(nextStartTime, clock)` and advances `nextStartTime` by the
duration of the buffer; consequently, for any arrival sequence with
non-negative durations, every start time is at least the clock reading
at scheduling, the start of buffer i+1 is at least the end of buffer i,
the cursor never decreases across the run, and the live `onmessage`
audio branch advances the cursor the same way. -/
theorem C1_playback_scheduler_ordering (next0 : ℚ) (arr : List (ℚ × ℚ))
    (hdur : ∀ p ∈ arr, 0 ≤ p.2) :
    (∀ n c d : ℚ, scheduleAudio n c d = (max n c, max n c + d)) ∧
    (∀ (i : ℕ) (h1 : i < (schedStarts next0 arr).length) (h2 : i < arr.length),
      (arr.get ⟨i, h2⟩).1 ≤ (schedStarts next0 arr).get ⟨i, h1⟩) ∧
    (∀ (i : ℕ) (h1 : i < (schedStarts next0 arr).length)
      (h2 : i + 1 < (schedStarts next0 arr).length) (h3 : i < arr.length),
      (schedStarts next0 arr).get ⟨i, h1⟩ + (arr.get ⟨i, h3⟩).2 ≤
        (schedStarts next0 arr).get ⟨i + 1, h2⟩) ∧
    next0 ≤ schedNext next0 arr ∧
    (∀ (s : ConvState) (dur clock : ℚ), s.outputCtx.isSome →
      (handleAudio s dur clock).nextStartTime = max s.nextStartTime clock + dur) := by
  refine ⟨fun n c d => rfl, schedStarts_clock_le arr next0,
    schedStarts_gap arr next0, schedNext_mono arr next0 hdur, ?_⟩
  intro s dur clock hctx
  rw [handleAudio, if_pos hctx]
  by_cases hrec : s.recState = RecState.recording <;>
    simp [hrec, pauseRecording, scheduleAudio] <;>
    split <;> rfl

theorem C1_playback_scheduler_ordering_witness :
    (∀ p ∈ [((0 : ℚ), (2 : ℚ)), ((5 : ℚ), (1 : ℚ))], 0 ≤ p.2) ∧
    (0 : ℚ) ≤ schedNext 0 [((0 : ℚ), (2 : ℚ)), ((5 : ℚ), (1 : ℚ))] :=
  ⟨by decide, (C1_playback_scheduler_ordering 0
    [((0 : ℚ), (2 : ℚ)), ((5 : ℚ), (1 : ℚ))] (by decide)).2.2.2.1⟩

theorem toInt16_of_small (n : ℤ) (h1 : -32768 ≤ n) (h2 : n ≤ 32767) :
    (if 32768 ≤ n % 65536 then n % 65536 - 65536 else n % 65536) = n := by
  split <;> omega

theorem jsTrunc_close (x : ℚ) : |(jsTrunc x : ℚ) - x| ≤ 1 := by
  rw [jsTrunc]
  split
  · rw [abs_sub_le_iff]
    constructor
    · linarith [Int.floor_le x]
    · linarith [Int.lt_floor_add_one x]
  · rw [abs_sub_le_iff]
    constructor
    · linarith [Int.ceil_lt_add_one x]
    · linarith [Int.le_ceil x]

theorem jsTrunc_bounds (x : ℚ) (h1 : -32768 ≤ x) (h2 : x < 32768) :
    -32768 ≤ jsTrunc x ∧ jsTrunc x ≤ 32767 := by
  rw [jsTrunc]
  split
  · constructor
    · have : (0 : ℤ) ≤ ⌊x⌋ := Int.floor_nonneg.mpr (by assumption)
      omega
    · have : ⌊x⌋ < (32768 : ℤ) := by
        rw [Int.floor_lt]
        exact_mod_cast h2
      omega
  · constructor
    · have hle : ((-32768 : ℤ) : ℚ) ≤ x := by exact_mod_cast h1
      have hc : ⌈((-32768 : ℤ) : ℚ)⌉ = (-32768 : ℤ) := Int.ceil_intCast _
      have hcc : ⌈((-32768 : ℤ) : ℚ)⌉ ≤ ⌈x⌉ := Int.ceil_le_ceil hle
      omega
    · have : ⌈x⌉ ≤ (0 : ℤ) := Int.ceil_le.mpr (by push_cast; linarith)
      omega

/-- C2: the audio-chunk encoder preserves buffer length, and encoding
then decoding is within one quantization step (1/32768) of the
original for every sample in [-1, 1); but at the boundary sample 1 the
unclamped `Int16Array` conversion of `x * 32768` wraps 32768 around to
-32768, which decodes to -1 — an error of 2 — so the claimed round-trip
at the boundary value 1 fails on the code. -/
theorem C2_encoder_roundtrip_and_boundary_wrap :
    (∀ samples : List ℚ, (encodeChunk samples).length = samples.length) ∧
    (∀ x : ℚ, -1 ≤ x → x < 1 →
      |decodeSample (encodeSample x) - x| ≤ 1 / 32768) ∧
    encodeSample 1 = -32768 ∧
    decodeSample (encodeSample 1) = -1 ∧
    ¬ |decodeSample (encodeSample 1) - 1| ≤ 1 / 32768 := by
  have hwrap : encodeSample 1 = -32768 := by
    have h1 : jsTrunc ((1 : ℚ) * 32768) = 32768 := by
      rw [jsTrunc, if_pos (by norm_num)]
      norm_num
    rw [encodeSample, toInt16, h1]
    decide
  refine ⟨fun samples => List.length_map samples encodeSample, ?_, hwrap, ?_, ?_⟩
  · intro x hx1 hx2
    have hb := jsTrunc_bounds (x * 32768) (by linarith) (by linarith)
    have henc : encodeSample x = jsTrunc (x * 32768) := by
      rw [encodeSample, toInt16]
      exact toInt16_of_small _ hb.1 hb.2
    rw [henc, decodeSample]
    have hclose := jsTrunc_close (x * 32768)
    have hdiv : (jsTrunc (x * 32768) : ℚ) / 32768 - x =
        ((jsTrunc (x * 32768) : ℚ) - x * 32768) / 32768 := by ring
    rw [hdiv, abs_div, abs_of_pos (show (0 : ℚ) < 32768 by norm_num)]
    gcongr
  · rw [hwrap, decodeSample]
    norm_num
  · rw [hwrap, decodeSample]
    norm_num

theorem C2_encoder_roundtrip_witness :
    ((-1 : ℚ) ≤ 1 / 2 ∧ (1 : ℚ) / 2 < 1) ∧
    |decodeSample (encodeSample (1 / 2)) - 1 / 2| ≤ 1 / 32768 :=
  ⟨⟨by norm_num, by norm_num⟩,
    C2_encoder_roundtrip_and_boundary_wrap.2.1 (1 / 2) (by norm_num) (by norm_num)⟩

theorem jsTrim_empty : jsTrim "" = "" := rfl

theorem feed_inputMsg (frags : List String) :
    ∀ (lang : AppLanguage) (s : ConvState),
      feedMessages lang s (frags.map inputMsg) =
        { s with currentInput := frags.foldl (fun a b => a ++ b) s.currentInput } := by
  induction frags with
  | nil => intro lang s; rfl
  | cons f fs ih =>
    intro lang s
    exact ih lang { s with currentInput := s.currentInput ++ f }

theorem feed_outputMsg (frags : List String) :
    ∀ (lang : AppLanguage) (s : ConvState),
      feedMessages lang s (frags.map outputMsg) =
        { s with currentLiveOutput := frags.foldl (fun a b => a ++ b) s.currentLiveOutput } := by
  induction frags with
  | nil => intro lang s; rfl
  | cons f fs ih =>
    intro lang s
    exact ih lang { s with currentLiveOutput := s.currentLiveOutput ++ f }

theorem feed_modelTextMsg (frags : List String) :
    ∀ (lang : AppLanguage) (s : ConvState),
      feedMessages lang s (frags.map modelTextMsg) =
        { s with currentOutput := frags.foldl (fun a b => a ++ b) s.currentOutput } := by
  induction frags with
  | nil => intro lang s; rfl
  | cons f fs ih =>
    intro lang s
    exact ih lang { s with currentOutput := s.currentOutput ++ f }

/-- C4: feeding any sequence of input-transcription fragments from a
state with empty accumulators and then a turn-complete message
finalizes the user message as the whitespace-trimmed concatenation of
the fragments in arrival order; when that trimmed concatenation is
empty no message at all is emitted; and all three accumulators are
cleared afterwards. -/
theorem C4_turn_finalization (lang : AppLanguage) (frags : List String)
    (s : ConvState) (h1 : s.currentInput = "") (h2 : s.currentOutput = "")
    (h3 : s.currentLiveOutput = "") :
    (jsTrim (concatFrags frags) ≠ "" →
      (onMessage lang (feedMessages lang s (frags.map inputMsg))
          turnCompleteMsg).history =
        s.history ++ [{ role := Role.user, text := jsTrim (concatFrags frags) }]) ∧
    (jsTrim (concatFrags frags) = "" →
      (onMessage lang (feedMessages lang s (frags.map inputMsg))
          turnCompleteMsg).history = s.history) ∧
    (onMessage lang (feedMessages lang s (frags.map inputMsg))
        turnCompleteMsg).currentInput = "" ∧
    (onMessage lang (feedMessages lang s (frags.map inputMsg))
        turnCompleteMsg).currentOutput = "" ∧
    (onMessage lang (feedMessages lang s (frags.map inputMsg))
        turnCompleteMsg).currentLiveOutput = "" := by
  have hf := feed_inputMsg frags lang s
  rw [h1] at hf
  rw [hf]
  refine ⟨?_, ?_, ?_, ?_, ?_⟩
  · intro h
    simp only [concatFrags] at h
    simp [onMessage, turnCompleteMsg, handleTurnComplete, concatFrags, h2, h3,
      jsTrim_empty, h]
  · intro h
    simp only [concatFrags] at h
    simp [onMessage, turnCompleteMsg, handleTurnComplete, concatFrags, h2, h3,
      jsTrim_empty, h]
  · simp [onMessage, turnCompleteMsg, handleTurnComplete]
  · simp [onMessage, turnCompleteMsg, handleTurnComplete]
  · simp [onMessage, turnCompleteMsg, handleTurnComplete]

theorem C4_turn_finalization_witness :
    jsTrim (concatFrags ["He", "llo"]) ≠ "" ∧
    (onMessage AppLanguage.english
        (feedMessages AppLanguage.english initConv (["He", "llo"].map inputMsg))
        turnCompleteMsg).history =
      initConv.history ++ [{ role := Role.user, text := jsTrim (concatFrags ["He", "llo"]) }] :=
  ⟨by decide,
    (C4_turn_finalization AppLanguage.english ["He", "llo"] initConv rfl rfl rfl).1
      (by decide)⟩

/-- C10: feeding output-transcription fragments and model-turn text
parts from a state with empty accumulators and then turn-complete
appends a model message exactly when the trimmed concatenation of the
output-transcription fragments is non-empty (model-turn text alone
emits nothing); and when the first `---` segment of the non-empty
formatted text trims to empty, the Japanese-path message text falls
back to the live transcript. -/
theorem C10_model_message_emission (lang : AppLanguage)
    (outFrags turnTexts : List String) (s : ConvState)
    (h1 : s.currentInput = "") (h2 : s.currentOutput = "")
    (h3 : s.currentLiveOutput = "") :
    (jsTrim (concatFrags outFrags) = "" →
      (onMessage lang
          (feedMessages lang (feedMessages lang s (outFrags.map outputMsg))
            (turnTexts.map modelTextMsg)) turnCompleteMsg).history = s.history) ∧
    (jsTrim (concatFrags outFrags) ≠ "" →
      (onMessage lang
          (feedMessages lang (feedMessages lang s (outFrags.map outputMsg))
            (turnTexts.map modelTextMsg)) turnCompleteMsg).history =
        s.history ++ [mkModelMessage lang (jsTrim (concatFrags turnTexts))
          (jsTrim (concatFrags outFrags))]) ∧
    (∀ f l : String, f ≠ "" → jsTrim ((jsSplit "---" f).headD "") = "" →
      (mkModelMessage AppLanguage.japanese f l).text = l) := by
  have hfo := feed_outputMsg outFrags lang s
  rw [h3] at hfo
  rw [hfo, h2, feed_modelTextMsg turnTexts]
  refine ⟨?_, ?_, ?_⟩
  · intro h
    simp only [concatFrags] at h
    simp [onMessage, turnCompleteMsg, handleTurnComplete, concatFrags, h1,
      jsTrim_empty, h]
  · intro h
    simp only [concatFrags] at h
    simp [onMessage, turnCompleteMsg, handleTurnComplete, concatFrags, h1,
      jsTrim_empty, h]
  · intro f l hf hempty
    simp_all [mkModelMessage]

theorem C10_model_message_emission_witness :
    (jsTrim (concatFrags ["Hola"]) ≠ "" ∧
      (onMessage AppLanguage.japanese
          (feedMessages AppLanguage.japanese
            (feedMessages AppLanguage.japanese initConv (["Hola"].map outputMsg))
            (["---Romaji: x"].map modelTextMsg)) turnCompleteMsg).history =
        initConv.history ++ [mkModelMessage AppLanguage.japanese
          (jsTrim (concatFrags ["---Romaji: x"])) (jsTrim (concatFrags ["Hola"]))]) ∧
    ("---Romaji: x" ≠ "" ∧
      jsTrim ((jsSplit "---" "---Romaji: x").headD "") = "" ∧
      (mkModelMessage AppLanguage.japanese "---Romaji: x" "Hola").text = "Hola") :=
  ⟨⟨by decide,
      (C10_model_message_emission AppLanguage.japanese ["Hola"] ["---Romaji: x"]
        initConv rfl rfl rfl).2.1 (by decide)⟩,
    ⟨by decide, by decide,
      (C10_model_message_emission AppLanguage.japanese ["Hola"] ["---Romaji: x"]
        initConv rfl rfl rfl).2.2 "---Romaji: x" "Hola" (by decide) (by decide)⟩⟩

/-- C8 counterexample: in a paused state with no active buffers but a
non-zero `nextStartTime`, the interrupted-event flush is not a no-op on
the playback state — it still resets `nextStartTime` to zero — so
"flushing when no buffers are active is a no-op on the playback state"
fails on the code. -/
theorem C8_counterexample :
    ({ initConv with nextStartTime := 5, recState := RecState.paused } :
        ConvState).audioSources = 0 ∧
    onMessage AppLanguage.japanese
        { initConv with nextStartTime := 5, recState := RecState.paused }
        interruptedMsg ≠
      { initConv with nextStartTime := 5, recState := RecState.paused } := by
  decide

/-- C8 amended: an interrupted event leaves the whole session state
unchanged except for the playback scheduler, which it flushes: the
active-source set becomes empty and `nextStartTime` is reset to zero;
flushing with no active buffers stops no source (a no-op on the
active-source set), though it still resets `nextStartTime`, and a
second consecutive flush changes nothing and stops nothing. -/
theorem C8_interrupted_flushes (lang : AppLanguage) (s : ConvState) :
    onMessage lang s interruptedMsg =
      { s with audioSources := 0, nextStartTime := 0 } ∧
    (onMessage lang s interruptedMsg).recState = s.recState ∧
    (s.audioSources = 0 → (flushPlayback s).2 = 0) ∧
    (flushPlayback (flushPlayback s).1).1 = (flushPlayback s).1 ∧
    (flushPlayback (flushPlayback s).1).2 = 0 :=
  ⟨rfl, rfl, fun h => h, rfl, rfl⟩

theorem C8_interrupted_flushes_witness :
    initConv.audioSources = 0 ∧ (flushPlayback initConv).2 = 0 :=
  ⟨rfl, (C8_interrupted_flushes AppLanguage.english initConv).2.2.1 rfl⟩

/-- C9 counterexample: a recording session that is auto-paused by an
agent audio fragment and then receives turn-complete (with no further
audio and no user action) is still paused afterwards, not recording as
the claim states — the handler never resumes recording on
turn-complete. -/
theorem C9_counterexample :
    (onMessage AppLanguage.english
        (onMessage AppLanguage.english
          { initConv with
            recState := RecState.recording
            sessionOpen := true
            streamOpen := true
            scriptProcessor := true
            mediaStreamSource := true
            captureConnected := true
            inputCtx := some true
            outputCtx := some true }
          (audioMsg 1 0))
        turnCompleteMsg).recState = RecState.paused ∧
    RecState.paused ≠ RecState.recording := by
  decide

/-- C9 amended: from a paused state the session returns to recording
when the user resumes (the capture nodes being present), but a
turn-complete event — indeed any message without an audio fragment —
never changes the recording state, so a session auto-paused by agent
audio stays paused until the user acts. -/
theorem C9_resume_only_by_user (lang : AppLanguage) (s : ConvState)
    (m : ServerMessage) (h1 : s.scriptProcessor = true)
    (h2 : s.mediaStreamSource = true) (hm : m.audio = none) :
    (resumeRecording s).recState = RecState.recording ∧
    (onMessage lang s m).recState = s.recState := by
  constructor
  · rw [resumeRecording]
    simp [h1, h2]
  · rw [onMessage, hm]
    cases hin : m.inputTranscription <;> cases hout : m.outputTranscription <;>
      cases ht : m.turnComplete <;> cases hi : m.interrupted <;>
        simp [handleTurnComplete, flushPlayback]

theorem C9_resume_only_by_user_witness :
    (resumeRecording
        { initConv with
          recState := RecState.paused
          scriptProcessor := true
          mediaStreamSource := true }).recState = RecState.recording ∧
    (onMessage AppLanguage.english
        { initConv with
          recState := RecState.paused
          scriptProcessor := true
          mediaStreamSource := true } turnCompleteMsg).recState =
      ({ initConv with
          recState := RecState.paused
          scriptProcessor := true
          mediaStreamSource := true } : ConvState).recState :=
  C9_resume_only_by_user AppLanguage.english
    { initConv with
      recState := RecState.paused
      scriptProcessor := true
      mediaStreamSource := true } turnCompleteMsg rfl rfl rfl

theorem dropAfterFirst_self (pat : List Char) (h : pat ≠ []) :
    (dropAfterFirst pat pat).isSome = true := by
  match pat with
  | [] => exact absurd rfl h
  | c :: cs =>
    rw [dropAfterFirst]
    rw [if_pos (by rw [List.take_length])]
    rfl

theorem dropAfterFirst_append_isSome (pre : List Char) :
    ∀ pat : List Char, pre ≠ [] → (dropAfterFirst pat (pre ++ pat)).isSome = true := by
  induction pre with
  | nil => intro pat h; exact absurd rfl h
  | cons c pre2 ih =>
    intro pat _
    rw [List.cons_append, dropAfterFirst]
    split
    · rfl
    · next hcond =>
      cases pre2 with
      | nil =>
        simp only [List.nil_append] at hcond ⊢
        cases pat with
        | nil => simp at hcond
        | cons d ds => exact dropAfterFirst_self (d :: ds) (by simp)
      | cons d ds => exact ih pat (by simp)

theorem strOccurs_append (pre pat : String) (h : pre.data ≠ []) :
    strOccurs pat (pre ++ pat) = true := by
  rw [strOccurs, String.data_append]
  exact dropAfterFirst_append_isSome pre.data pat.data h

/-- C7 counterexample: in the part_003 written-mode variant, a Japanese
JSON payload that fails parsing (here the raw payload `"BANANA"`, with
the message of the thrown syntax error reaching the generic handler)
produces a model message that does not contain the raw payload and a
surfaced session error, so the claim that every written-mode parse
failure keeps the raw payload visible and is not surfaced fails on the
code. -/
theorem C7_counterexample :
    strOccurs "BANANA"
        (handleSendMessageV3 none "Unexpected token B in JSON" none).1.text = false ∧
    (handleSendMessageV3 none "Unexpected token B in JSON" none).2 ≠ none := by
  decide

/-- C7 amended: the two written-mode variants diverge on JSON parse
failure.  In part_002 the failure is recovered locally: the fallback
model message retains the raw payload (appended to an apology), carries
no romaji or breakdown, and no error is surfaced.  In part_003 the
failure propagates to the generic error handler: the conversation
continues with an appended message built from the friendly error text —
not containing the raw payload in general — and the error is surfaced
in the session error slot. -/
theorem C7_parse_failure_fallback :
    (∀ raw : String,
      (handleSendMessageV2 none raw).text =
        "Sorry, I had trouble formatting my response. Here is the raw text: " ++ raw ∧
      strOccurs raw (handleSendMessageV2 none raw).text = true ∧
      (handleSendMessageV2 none raw).romaji = none ∧
      (handleSendMessageV2 none raw).breakdown = none) ∧
    (∀ (errMsg : String) (pe : Option (Option String)),
      (handleSendMessageV3 none errMsg pe).1.text =
        "Lo siento, ocurrió un error: " ++ getFriendlyErrorMessage errMsg pe ∧
      (handleSendMessageV3 none errMsg pe).2 =
        some (getFriendlyErrorMessage errMsg pe) ∧
      (handleSendMessageV3 none errMsg pe).1.romaji = none ∧
      (handleSendMessageV3 none errMsg pe).1.breakdown = none) := by
  refine ⟨fun raw => ⟨rfl, ?_, rfl, rfl⟩, fun errMsg pe => ⟨rfl, rfl, rfl, rfl⟩⟩
  exact strOccurs_append
    "Sorry, I had trouble formatting my response. Here is the raw text: " raw
    (by decide)
